import Mathlib

/-!
Verification of the SVG generation pipeline of `svg_llm.py`
(class `SVGLLMGenerator`): response sanitization (`clean_svg_response`),
SVG repair (`validate_and_fix_svg`), the retry loop
(`call_api_with_retry`), provider request construction, placement
arithmetic and the document merge (`add_svg_to_document`,
`import_defs`, `import_element`), together with the main `effect`
control flow.

Strings are modelled as `List Char`; the specific regular expressions
used by the source are modelled as direct scanners with Python
`re.sub` semantics (leftmost, non-overlapping, continue after the
match in the original text).
-/

set_option autoImplicit false

abbrev Str := List Char

/-- `startsWithL pat s` : does `s` start with `pat`. -/
def startsWithL : Str → Str → Bool
  | [], _ => true
  | _ :: _, [] => false
  | p :: ps, c :: cs => p == c && startsWithL ps cs

/-- Python `pat in s` : substring containment. -/
def containsSub : Str → Str → Bool
  | pat, [] => startsWithL pat []
  | pat, c :: t => startsWithL pat (c :: t) || containsSub pat t

/-- The character class of Python `\s` / `str.strip()` (ASCII part). -/
def isSpaceC (c : Char) : Bool :=
  c == ' ' || c == '\t' || c == '\n' || c == '\r' ||
  c == Char.ofNat 11 || c == Char.ofNat 12

/-- Python `str.strip()`. -/
def stripL (s : Str) : Str :=
  ((s.dropWhile isSpaceC).reverse.dropWhile isSpaceC).reverse

/-- Python `s.replace(pat, rep, 1)` for a non-empty literal `pat`. -/
def replaceFirst (pat rep : Str) : Str → Str
  | [] => []
  | c :: t =>
    if startsWithL pat (c :: t) then rep ++ List.drop pat.length (c :: t)
    else c :: replaceFirst pat rep t

/-- Python `s.replace(pat, rep)` (all non-overlapping occurrences,
left to right, no rescan of the replacement), fuelled so that the
definition is structurally recursive; `fuel ≥ s.length` is enough. -/
def replaceAllF : Nat → Str → Str → Str → Str
  | 0, _, _, s => s
  | _ + 1, _, _, [] => []
  | f + 1, pat, rep, c :: t =>
    if startsWithL pat (c :: t) then
      rep ++ replaceAllF f pat rep (List.drop pat.length (c :: t))
    else c :: replaceAllF f pat rep t

/-- Length matched by the optional `(?:svg|xml)?` group. -/
def fenceTagLen (r : Str) : Nat :=
  if startsWithL ("svg".data) r then 3
  else if startsWithL ("xml".data) r then 3
  else 0

/-- `re.sub(r'^```(?:svg|xml)?\s*\n?', '', s, flags=re.MULTILINE)`:
the Boolean argument records whether the current position is at the
start of a line (`^` with MULTILINE).  After `` ``` `` and the optional
tag, the greedy `\s*` absorbs every following whitespace character
(including newlines), after which `\n?` is empty. -/
def subFenceOpen : Nat → Bool → Str → Str
  | 0, _, s => s
  | _ + 1, _, [] => []
  | f + 1, atStart, c :: t =>
    if atStart && startsWithL ("```".data) (c :: t) then
      let r := List.drop 3 (c :: t)
      let r2 := List.drop (fenceTagLen r) r
      let ws := List.takeWhile isSpaceC r2
      subFenceOpen f (ws.getLast? == some '\n') (List.drop ws.length r2)
    else
      c :: subFenceOpen f (c == '\n') t

/-- Index of the last `'\n'` of a list, if any. -/
def lastNlIdx : Str → Option Nat
  | [] => none
  | c :: t =>
    match lastNlIdx t with
    | some j => some (j + 1)
    | none => if c == '\n' then some 0 else none

/-- For `re.sub(r'\n?```\s*$', '', s, flags=re.MULTILINE)`: number of
characters matched by `\s*$` at the text `r` that follows `` ``` ``.
The greedy `\s*` backtracks until `$` holds, i.e. until the position
is the end of the text or sits just before a `'\n'`. -/
def closeMatchLen (r : Str) : Option Nat :=
  let ws := List.takeWhile isSpaceC r
  if ws.length == r.length then some ws.length
  else lastNlIdx ws

/-- `re.sub(r'\n?```\s*$', '', s, flags=re.MULTILINE)`. -/
def subFenceClose : Nat → Str → Str
  | 0, s => s
  | _ + 1, [] => []
  | f + 1, c :: t =>
    if c == '\n' && startsWithL ("```".data) t then
      match closeMatchLen (List.drop 3 t) with
      | some m => subFenceClose f (List.drop m (List.drop 3 t))
      | none => c :: subFenceClose f t
    else if startsWithL ("```".data) (c :: t) then
      match closeMatchLen (List.drop 3 (c :: t)) with
      | some m => subFenceClose f (List.drop m (List.drop 3 (c :: t)))
      | none => c :: subFenceClose f t
    else c :: subFenceClose f t

/-- Length matched at the head of `s` by `<\?xml[^>]+\?>` (with
`needsQ = true`) or by `<!DOCTYPE[^>]+>` (with `needsQ = false`).
The greedy `[^>]+` runs to the first `'>'`; for the XML declaration
the character before that `'>'` must be `'?'` and the bracket class
must still consume at least one character. -/
def declMatchLen (opener : Str) (needsQ : Bool) (s : Str) : Option Nat :=
  if startsWithL opener s then
    let rest := List.drop opener.length s
    let body := List.takeWhile (fun c => c != '>') rest
    if body.length < rest.length then
      if needsQ then
        if 2 ≤ body.length && body.getLast? == some '?' then
          some (opener.length + body.length + 1)
        else none
      else
        if 1 ≤ body.length then some (opener.length + body.length + 1)
        else none
    else none
  else none

/-- `re.sub(opener..'[^>]+'..close..r'\s*', '', s)` for the XML
declaration and DOCTYPE patterns of `clean_svg_response`. -/
def subDecl (opener : Str) (needsQ : Bool) : Nat → Str → Str
  | 0, s => s
  | _ + 1, [] => []
  | f + 1, c :: t =>
    match declMatchLen opener needsQ (c :: t) with
    | some k =>
      let rest := List.drop k (c :: t)
      let ws := List.takeWhile isSpaceC rest
      subDecl opener needsQ f (List.drop ws.length rest)
    | none => c :: subDecl opener needsQ f t

/-- `clean_svg_response` (svg_llm.py lines 625-642): strip markdown
fences, XML prolog and DOCTYPE, empty `xmlns` attributes and
`&nbsp;`, then trim whitespace. -/
def cleanSvgResponse (s : Str) : Str :=
  let s1 := subFenceOpen s.length true s
  let s2 := subFenceClose s1.length s1
  let s3 := subDecl ("<?xml".data) true s2.length s2
  let s4 := subDecl ("<!DOCTYPE".data) false s3.length s3
  let s5 := replaceAllF s4.length ("xmlns=\"\"".data) [] s4
  let s6 := replaceAllF s5.length ("&nbsp;".data) ([' ']) s5
  stripL s6

/-- Decimal rendering of a natural number, as the characters of the
Python f-string interpolation. -/
def natStr (n : Nat) : Str := (Nat.repr n).data

/-- The wrapper built by `validate_and_fix_svg` when the text holds no
svg element at all:
`f'<svg xmlns="http://www.w3.org/2000/svg" viewBox="0 0 {width} {height}">{svg_code}</svg>'`. -/
def wrapSvg (s : Str) (w h : Nat) : Str :=
  ("<svg xmlns=\"http://www.w3.org/2000/svg\" viewBox=\"0 0 ".data) ++
    (natStr w ++ (([' ']) ++ (natStr h ++ (("\">".data) ++ (s ++ ("</svg>".data))))))

/-- Replacement text of the namespace insertion. -/
def xmlnsIns : Str := ("<svg xmlns=\"http://www.w3.org/2000/svg\"".data)

/-- Replacement text of the `viewBox` insertion. -/
def viewBoxIns (w h : Nat) : Str :=
  ("<svg viewBox=\"0 0 ".data) ++ (natStr w ++ (([' ']) ++ (natStr h ++ ("\"".data))))

/-- Start index of the last occurrence of `pat` in `s`, if any. -/
def lastOcc (pat : Str) : Str → Option Nat
  | [] => none
  | c :: t =>
    match lastOcc pat t with
    | some j => some (j + 1)
    | none => if startsWithL pat (c :: t) then some 0 else none

/-- The span matched by `re.search(r'<svg[^>]*>.*</svg>', s, re.DOTALL)`
when the attempt starts at the head of `s` (which begins with `<svg`):
the greedy `[^>]*` runs to the first `'>'`, the greedy DOTALL `.*`
backtracks to the last `</svg>` of the remaining text. -/
def svgSpanAt (s : Str) : Option Str :=
  let rest := List.drop 4 s
  let body := List.takeWhile (fun c => c != '>') rest
  if body.length < rest.length then
    let after := List.drop (body.length + 1) rest
    match lastOcc ("</svg>".data) after with
    | some k =>
      some (("<svg".data) ++ (body ++ ((['>']) ++ (List.take k after ++ ("</svg>".data)))))
    | none => none
  else none

/-- `re.search(r'<svg[^>]*>.*</svg>', s, re.DOTALL)`: leftmost
successful attempt. -/
def svgSearch : Str → Option Str
  | [] => none
  | c :: t =>
    if startsWithL ("<svg".data) (c :: t) then
      match svgSpanAt (c :: t) with
      | some m => some m
      | none => svgSearch t
    else svgSearch t

/-- `validate_and_fix_svg`, step one (svg_llm.py lines 646-654): make
the text start with `<svg`, extracting an svg span or wrapping. -/
def ensureSvgRoot (s : Str) (w h : Nat) : Str :=
  if startsWithL ("<svg".data) s then s
  else
    match svgSearch s with
    | some m => m
    | none => wrapSvg s w h

/-- `validate_and_fix_svg`, step two (lines 656-658): insert the SVG
namespace into the first `<svg` when `xmlns=` occurs nowhere. -/
def ensureXmlns (s : Str) : Str :=
  if containsSub ("xmlns=".data) s then s
  else replaceFirst ("<svg".data) xmlnsIns s

/-- `validate_and_fix_svg`, step three (lines 660-662): insert a
`viewBox` into the first `<svg` when `viewBox=` occurs nowhere. -/
def ensureViewBox (s : Str) (w h : Nat) : Str :=
  if containsSub ("viewBox=".data) s then s
  else replaceFirst ("<svg".data) (viewBoxIns w h) s

/-- `validate_and_fix_svg` (svg_llm.py lines 644-664). -/
def validateAndFixSvg (s : Str) (w h : Nat) : Str :=
  ensureViewBox (ensureXmlns (ensureSvgRoot s w h)) w h

/-- The minimal valid fragment of the round-trip property. -/
def minimalFrag : Str :=
  ("<svg xmlns=\"http://www.w3.org/2000/svg\" viewBox=\"0 0 10 10\"><rect width=\"5\" height=\"5\"/></svg>".data)

/-! ## Retry loop, provider adapters and placement -/

/-- The loop body of `call_api_with_retry` (svg_llm.py lines 418-437):
`for attempt in range(retry_count + 1): try: return call_api(...)
except Exception as e: last_error = e` followed by `raise last_error`.
`api` abstracts one provider call per attempt index; the second
component counts the attempts performed. -/
def callApiRetryGo {E A : Type} (api : Nat → Except E A) :
    Nat → Nat → Except E A × Nat
  | a, rem =>
    match api a with
    | .ok v => (.ok v, 1)
    | .error e =>
      match rem with
      | 0 => (.error e, 1)
      | r + 1 =>
        let p := callApiRetryGo api (a + 1) r
        (p.1, p.2 + 1)

/-- `call_api_with_retry` with `retry_count = retryCount`: result and
number of attempts performed. -/
def callApiWithRetry {E A : Type} (retryCount : Nat)
    (api : Nat → Except E A) : Except E A × Nat :=
  callApiRetryGo api 0 retryCount

/-- `call_openai_api` (lines 454-483) sends `self.options.model`
unchanged in the wire body. -/
def openaiWireModel (model : Str) : Str := model

/-- `call_anthropic_api` model mapping (lines 495-498). -/
def anthropicWireModel (model : Str) : Str :=
  if startsWithL ("claude".data) model then model
  else ("claude-3-5-sonnet-20241022".data)

/-- `call_google_api` model mapping (lines 515-517). -/
def googleWireModel (model : Str) : Str :=
  if startsWithL ("gemini".data) model then model
  else ("gemini-1.5-flash".data)

/-- `call_ollama_api` model mapping (lines 548-550). -/
def ollamaWireModel (model : Str) : Str :=
  if startsWithL ("gpt".data) model || startsWithL ("claude".data) model ||
      startsWithL ("gemini".data) model then
    ("llama3.1".data)
  else model

/-- Position computation of `add_svg_to_document` (lines 677-697):
origin, selection-anchored (falling back to centered when no bounding
box is found), or centered.  Document and target dimensions are exact
rationals. -/
def computePos (position : Str) (hasSelection : Bool)
    (bbox : Option (ℚ × ℚ)) (docW docH targetW targetH : ℚ) : ℚ × ℚ :=
  if position = ("origin".data) then (0, 0)
  else if position = ("selection".data) ∧ hasSelection = true then
    match bbox with
    | some (r, t) => (r + 20, t)
    | none => ((docW - targetW) / 2, (docH - targetH) / 2)
  else ((docW - targetW) / 2, (docH - targetH) / 2)

/-- Variation offset (line 145):
`offset_x = i * (width + 20) if variations > 1 else 0`. -/
def offsetX (variations i : Nat) (width : ℚ) : ℚ :=
  if 1 < variations then (i : ℚ) * (width + 20) else 0

/-- The effective x position (line 700): `pos_x += offset_x`. -/
def finalPosX (position : Str) (hasSelection : Bool)
    (bbox : Option (ℚ × ℚ)) (docW docH targetW targetH : ℚ)
    (variations i : Nat) : ℚ :=
  (computePos position hasSelection bbox docW docH targetW targetH).1 +
    offsetX variations i targetW

/-! ## Document merger (add_svg_to_document, import_defs, import_element) -/

mutual
/-- An element of the parsed fragment tree (an `xml.etree` element):
raw tag (possibly namespace-qualified), attribute list, text content
(empty list for `None`), children. -/
inductive XElem : Type where
  | mk (tag : Str) (attrs : List (Str × Str)) (text : Str) (children : XForest)
/-- A sequence of fragment elements. -/
inductive XForest : Type where
  | nil : XForest
  | cons (e : XElem) (f : XForest) : XForest
end

mutual
/-- A host-document element as built by `import_element`. -/
inductive HElem : Type where
  | mk (tag : Str) (attrs : List (Str × Str)) (text : Str) (children : HForest)
/-- A sequence of host-document elements. -/
inductive HForest : Type where
  | nil : HForest
  | cons (e : HElem) (f : HForest) : HForest
end

/-- `s.split('}')[-1]` — the text after the last `'}'` (the whole
string when there is none), used for tags and attribute keys. -/
def stripNsTag (s : Str) : Str :=
  (s.reverse.takeWhile (fun c => c != Char.ofNat 125)).reverse

/-- The keys of `element_map` (svg_llm.py lines 778-804). -/
def elementMapTags : List Str :=
  (["rect", "circle", "ellipse", "line", "polyline", "polygon", "path",
    "text", "tspan", "g", "defs", "use", "clipPath", "mask",
    "linearGradient", "radialGradient", "stop", "image", "title", "desc",
    "symbol", "marker", "pattern", "filter", "style"]).map String.data

/-- `container_tags` (lines 822-823). -/
def containerTags : List Str :=
  (["g", "defs", "clipPath", "mask", "symbol", "marker", "pattern",
    "linearGradient", "radialGradient", "filter", "text"]).map String.data

mutual
/-- `import_element` (lines 771-846).  Known tags get their attribute
keys namespace-stripped, text only when non-empty after stripping, and
children recursively imported when the tag is a container; unknown
tags fall back to the generic node keeping the raw attribute keys and
any non-empty text, with no children.  The host-API failure paths
(`except` branches returning `None`) have no counterpart in a pure
model, so the function always returns `some`; `add_svg_to_document`
still checks the option as the source checks `is not None`. -/
def importElement : XElem → Option HElem
  | .mk rawTag attrs text children =>
    let tag := stripNsTag rawTag
    if elementMapTags.contains tag then
      some (.mk tag
        (attrs.map (fun kv => (stripNsTag kv.1, kv.2)))
        (if !text.isEmpty && !(stripL text).isEmpty then text else [])
        (if containerTags.contains tag then importForest children else .nil))
    else
      some (.mk tag attrs text .nil)
/-- The loop of `import_element` over the children of a container
element: imports that return `None` are skipped. -/
def importForest : XForest → HForest
  | .nil => .nil
  | .cons e f =>
    match importElement e with
    | some h => .cons h (importForest f)
    | none => importForest f
end

/-- The children of a fragment element. -/
def xchildren : XElem → XForest
  | .mk _ _ _ cs => cs

/-- A fragment forest as a list. -/
def forestElems : XForest → List XElem
  | .nil => []
  | .cons e f => e :: forestElems f

/-- Does the element's namespace-stripped tag read `defs`
(line 727-728 / 733-734)? -/
def tagIsDefs (e : XElem) : Bool :=
  match e with
  | .mk rawTag _ _ _ => stripNsTag rawTag == ("defs".data)

/-- One observable step of the merge: a node appended to the host's
global `defs` container (`import_defs`), to the variation group, the
group appended to the current layer, or a node appended directly to
the current layer (the branch without grouping, where the source
additionally sets a translation transform on the node). -/
inductive MergeEvent : Type where
  | toDefs (e : HElem)
  | toGroup (e : HElem)
  | groupToLayer
  | toLayer (e : HElem)

/-- `import_defs` (lines 761-769): every child of a `defs` element is
imported and appended to the document's defs container. -/
def importDefsEvents (cs : XForest) : List MergeEvent :=
  ((forestElems cs).filterMap importElement).map MergeEvent.toDefs

/-- First pass of the grouping branch (lines 726-729): defs blocks are
imported into the global defs container. -/
def defsPass : List XElem → List MergeEvent
  | [] => []
  | e :: rest =>
    (if tagIsDefs e then importDefsEvents (xchildren e) else []) ++ defsPass rest

/-- Second pass of the grouping branch (lines 732-737): every non-defs
child is imported and appended to the group; a `None` import is
skipped and the siblings continue. -/
def othersPass : List XElem → List MergeEvent
  | [] => []
  | e :: rest =>
    (if tagIsDefs e then []
      else
        match importElement e with
        | some h => [MergeEvent.toGroup h]
        | none => []) ++ othersPass rest

/-- The branch without grouping (lines 741-752): every child —
including `defs` elements — is imported in source order and appended
directly to the current layer. -/
def layerPass : List XElem → List MergeEvent
  | [] => []
  | e :: rest =>
    (match importElement e with
      | some h => [MergeEvent.toLayer h]
      | none => []) ++ layerPass rest

/-- The append events of `add_svg_to_document` (lines 702-752) on the
children of the parsed fragment root. -/
def addSvgEvents (addGroup : Bool) (children : List XElem) : List MergeEvent :=
  if addGroup then (defsPass children ++ othersPass children) ++ [MergeEvent.groupToLayer]
  else layerPass children

/-! ## The effect control flow (svg_llm.py lines 94-154) -/

/-- The option values read by `effect`. -/
structure EffOptions where
  provider : Str
  apiKey : Str
  saveApiKey : Bool
  prompt : Str
  variations : Int
  retryCount : Nat
  saveToHistory : Bool

/-- The observable steps of one run of `effect`: a user-visible error
message, the credential store write, one network attempt (variation,
attempt), the call of `add_svg_to_document` for a variation (the only
step that attaches nodes to the host document), the history write. -/
inductive EffEvent : Type where
  | errorMsg (msg : Str)
  | savedKey
  | networkAttempt (variation attempt : Nat)
  | addSvgCall (variationNum : Nat)
  | savedHistory
deriving DecidableEq

/-- Key resolution (lines 100-102): a saved key replaces an empty or
placeholder option value when the config holds one for the provider. -/
def resolvedKey (o : EffOptions) (cfgKeys : List (Str × Str)) : Str :=
  if o.apiKey.isEmpty || o.apiKey == ("sk-...".data) then
    match (cfgKeys.find? (fun kv => kv.1 == o.provider)).map (fun kv => kv.2) with
    | some k => k
    | none => o.apiKey
  else o.apiKey

/-- The key test of lines 105-106: required for every provider except
`ollama`; empty or `sk-...`-prefixed keys are rejected. -/
def keyInvalid (o : EffOptions) (k : Str) : Bool :=
  (o.provider != ("ollama".data)) &&
    (k.isEmpty || startsWithL ("sk-...".data) k)

/-- The prompt test of line 115:
`not self.options.prompt or len(self.options.prompt.strip()) < 3`. -/
def promptInvalid (o : EffOptions) : Bool :=
  o.prompt.isEmpty || decide ((stripL o.prompt).length < 3)

/-- Line 107's message. -/
def keyErrMsg (o : EffOptions) : Str :=
  ("Please provide a valid API key for ".data) ++ (o.provider ++ (".".data))

/-- Line 116's message. -/
def promptErrMsg : Str :=
  ("Please provide a description of what you want to generate.".data)

/-- `variations = min(max(1, self.options.variations), 4)` (line 131). -/
def clampedVariations (o : EffOptions) : Nat :=
  (min (max 1 o.variations) 4).toNat

/-- The loop body of lines 133-150 for variations `i, i+1, …`
(`n` of them): the retry attempts of `call_api_with_retry`, then
either the per-variation error report (lines 148-149), the
empty-response report (lines 137-139), or the
`validate_and_fix_svg` + `add_svg_to_document` path (lines 142-146,
with `variation_num = i + 1`). -/
def variationEvents (api : Nat → Nat → Except Str Str) (retryCount : Nat) :
    Nat → Nat → List EffEvent
  | _, 0 => []
  | i, n + 1 =>
    let r := callApiWithRetry retryCount (api i)
    let attempts := (List.range r.2).map (fun a => EffEvent.networkAttempt i a)
    let tail := variationEvents api retryCount (i + 1) n
    match r.1 with
    | .error e =>
      attempts ++
        ([EffEvent.errorMsg ((("Error generating variation ".data) ++
          (natStr (i + 1) ++ ((": ".data) ++ e))))] ++ tail)
    | .ok svg =>
      if svg.isEmpty then
        attempts ++
          ([EffEvent.errorMsg ((("No SVG code generated for variation ".data) ++
            (natStr (i + 1) ++ (". Please try again.".data))))] ++ tail)
      else attempts ++ ([EffEvent.addSvgCall (i + 1)] ++ tail)

/-- The observable steps of `effect` (lines 94-154); `api v a`
abstracts the provider call of variation `v`, attempt `a` (already
parsed and cleaned).  Pure steps (size computation, prompt building,
selection context) produce no events. -/
def effectEvents (o : EffOptions) (cfgKeys : List (Str × Str))
    (api : Nat → Nat → Except Str Str) : List EffEvent :=
  let k := resolvedKey o cfgKeys
  if keyInvalid o k then [EffEvent.errorMsg (keyErrMsg o)]
  else
    let ev1 := if o.saveApiKey && !k.isEmpty then [EffEvent.savedKey] else []
    if promptInvalid o then ev1 ++ [EffEvent.errorMsg promptErrMsg]
    else
      ev1 ++ (variationEvents api o.retryCount 0 (clampedVariations o) ++
        (if o.saveToHistory then [EffEvent.savedHistory] else []))

/-- A gradient definition used by the merge-ordering counterexample. -/
def cexGradElem : XElem :=
  .mk ("linearGradient".data) ([(("id".data), ("g1".data))]) [] .nil

/-- A shape referencing the gradient by identifier. -/
def cexRectElem : XElem :=
  .mk ("rect".data) ([(("fill".data), ("url(#g1)".data))]) [] .nil

/-- A `defs` block holding the gradient, placed after the shape. -/
def cexDefsElem : XElem := .mk ("defs".data) [] [] (.cons cexGradElem .nil)

/-! ## Helper lemmas on the string machinery -/

theorem sw_nil (p : Str) (h : startsWithL p [] = true) : p = [] := by
  cases p with
  | nil => rfl
  | cons x xs => simp [startsWithL] at h

theorem sw_self (p : Str) : startsWithL p p = true := by
  induction p with
  | nil => rfl
  | cons x xs ih => simp [startsWithL, ih]

theorem sw_append (p a b : Str) (h : startsWithL p a = true) :
    startsWithL p (a ++ b) = true := by
  induction p generalizing a with
  | nil => rfl
  | cons x xs ih =>
    cases a with
    | nil => simp [startsWithL] at h
    | cons c cs =>
      simp only [List.cons_append]
      simp only [startsWithL, Bool.and_eq_true] at h ⊢
      exact ⟨h.1, ih cs h.2⟩

theorem sw_decomp (p s : Str) (h : startsWithL p s = true) :
    s = p ++ List.drop p.length s := by
  induction p generalizing s with
  | nil => simp
  | cons x xs ih =>
    cases s with
    | nil => simp [startsWithL] at h
    | cons c cs =>
      simp only [startsWithL, Bool.and_eq_true, beq_iff_eq] at h
      obtain ⟨h1, h2⟩ := h
      subst h1
      simpa using ih cs h2

theorem contains_nil_pat (s : Str) : containsSub [] s = true := by
  cases s <;> rfl

theorem contains_append_l (p a b : Str) (h : containsSub p a = true) :
    containsSub p (a ++ b) = true := by
  induction a with
  | nil =>
    have := sw_nil p h
    subst this
    exact contains_nil_pat b
  | cons c t ih =>
    simp only [containsSub, Bool.or_eq_true] at h
    simp only [List.cons_append, containsSub, Bool.or_eq_true]
    rcases h with h | h
    · exact Or.inl (by simpa using sw_append p (c :: t) b h)
    · exact Or.inr (ih h)

theorem contains_append_r (p a b : Str) (h : containsSub p b = true) :
    containsSub p (a ++ b) = true := by
  induction a with
  | nil => simpa using h
  | cons c t ih =>
    simp only [List.cons_append, containsSub, Bool.or_eq_true]
    exact Or.inr ih

theorem contains_cons_ne (p : Str) (c : Char) (t : Str)
    (h : startsWithL p (c :: t) = false) :
    containsSub p (c :: t) = containsSub p t := by
  simp [containsSub, h]

theorem sw_false_of_contains_false (p s : Str) (h : containsSub p s = false) :
    startsWithL p s = false := by
  cases s with
  | nil => exact h
  | cons c t =>
    simp only [containsSub, Bool.or_eq_false_iff] at h
    exact h.1

theorem contains_tail_false (p : Str) (c : Char) (t : Str)
    (h : containsSub p (c :: t) = false) : containsSub p t = false := by
  simp only [containsSub, Bool.or_eq_false_iff] at h
  exact h.2

theorem replaceFirst_sw (pat rep : Str) (c : Char) (t : Str)
    (h : startsWithL pat (c :: t) = true) :
    replaceFirst pat rep (c :: t) = rep ++ List.drop pat.length (c :: t) := by
  simp [replaceFirst, h]

theorem contains_xmlns_after_svg (r : Str) :
    containsSub ("xmlns=".data) (("<svg".data) ++ r) =
      containsSub ("xmlns=".data) r := by
  show containsSub _ ('<' :: 's' :: 'v' :: 'g' :: r) = _
  rw [contains_cons_ne _ _ _ (by rfl), contains_cons_ne _ _ _ (by rfl),
    contains_cons_ne _ _ _ (by rfl), contains_cons_ne _ _ _ (by rfl)]

/-! ## Lemmas on the stages of validate_and_fix_svg -/

theorem svgSpanAt_shape (s m : Str) (h : svgSpanAt s = some m) :
    ∃ r, m = ("<svg".data) ++ r := by
  simp only [svgSpanAt] at h
  split at h
  · split at h
    · exact ⟨_, (Option.some.inj h).symm⟩
    · exact absurd h (by simp)
  · exact absurd h (by simp)

theorem svgSearch_shape (s m : Str) (h : svgSearch s = some m) :
    ∃ r, m = ("<svg".data) ++ r := by
  induction s with
  | nil => exact absurd h (by simp [svgSearch])
  | cons c t ih =>
    unfold svgSearch at h
    split at h
    · split at h
      · next heq => exact svgSpanAt_shape _ _ (heq.trans h)
      · exact ih h
    · exact ih h

theorem ensureSvgRoot_sw (s : Str) (w h : Nat) :
    startsWithL ("<svg".data) (ensureSvgRoot s w h) = true := by
  unfold ensureSvgRoot
  split
  · assumption
  · split
    · next m heq =>
      obtain ⟨r, hr⟩ := svgSearch_shape _ _ heq
      rw [hr]
      exact sw_append _ _ _ (sw_self _)
    · unfold wrapSvg
      exact sw_append _ _ _ (by rfl)

theorem ensureXmlns_sw (s : Str) (h : startsWithL ("<svg".data) s = true) :
    startsWithL ("<svg".data) (ensureXmlns s) = true := by
  unfold ensureXmlns
  split
  · exact h
  · cases s with
    | nil => simp [startsWithL] at h
    | cons c t =>
      rw [replaceFirst_sw _ _ _ _ h]
      exact sw_append _ _ _ (by rfl)

theorem ensureXmlns_contains (s : Str) (h : startsWithL ("<svg".data) s = true) :
    containsSub ("xmlns=".data) (ensureXmlns s) = true := by
  unfold ensureXmlns
  split
  · assumption
  · cases s with
    | nil => simp [startsWithL] at h
    | cons c t =>
      rw [replaceFirst_sw _ _ _ _ h]
      exact contains_append_l _ _ _ (by rfl)

theorem ensureViewBox_post (s : Str) (w h : Nat)
    (hsw : startsWithL ("<svg".data) s = true)
    (hx : containsSub ("xmlns=".data) s = true) :
    containsSub ("xmlns=".data) (ensureViewBox s w h) = true ∧
      containsSub ("viewBox=".data) (ensureViewBox s w h) = true := by
  unfold ensureViewBox
  split
  · exact ⟨hx, by assumption⟩
  · cases s with
    | nil => simp [startsWithL] at hsw
    | cons c t =>
      rw [replaceFirst_sw _ _ _ _ hsw]
      constructor
      · have hd := sw_decomp _ _ hsw
        rw [hd, contains_xmlns_after_svg] at hx
        exact contains_append_r _ _ _ hx
      · apply contains_append_l
        unfold viewBoxIns
        exact contains_append_l _ _ _ (by rfl)

/-! ## Claim theorems: text pipeline -/

/-- C1: for every input text and positive requested width and height,
`validate_and_fix_svg (clean_svg_response x) w h` contains both an
`xmlns=` declaration and a `viewBox=` attribute; moreover when the
cleaned text neither starts with `<svg` nor holds an `<svg …>…</svg>`
span, the result is exactly the synthesized wrapper element carrying
`xmlns` and `viewBox="0 0 w h"`. -/
theorem clean_then_validate_has_xmlns_and_viewBox (x : Str) (w h : Nat)
    (hw : 0 < w) (hh : 0 < h) :
    containsSub ("xmlns=".data) (validateAndFixSvg (cleanSvgResponse x) w h) = true ∧
    containsSub ("viewBox=".data) (validateAndFixSvg (cleanSvgResponse x) w h) = true ∧
    ((startsWithL ("<svg".data) (cleanSvgResponse x) = false ∧
        svgSearch (cleanSvgResponse x) = none) →
      validateAndFixSvg (cleanSvgResponse x) w h = wrapSvg (cleanSvgResponse x) w h) := by
  set s := cleanSvgResponse x with hs
  have h1 := ensureSvgRoot_sw s w h
  have h2 := ensureXmlns_sw _ h1
  have h3 := ensureXmlns_contains _ h1
  have h4 := ensureViewBox_post _ w h h2 h3
  refine ⟨h4.1, h4.2, ?_⟩
  rintro ⟨ha, hb⟩
  have e1 : ensureSvgRoot s w h = wrapSvg s w h := by
    unfold ensureSvgRoot
    rw [if_neg (by simp [ha]), hb]
  have e2 : ensureXmlns (wrapSvg s w h) = wrapSvg s w h := by
    unfold ensureXmlns
    rw [if_pos ?hx]
    case hx => unfold wrapSvg; exact contains_append_l _ _ _ (by rfl)
  have e3 : ensureViewBox (wrapSvg s w h) w h = wrapSvg s w h := by
    unfold ensureViewBox
    rw [if_pos ?hv]
    case hv => unfold wrapSvg; exact contains_append_l _ _ _ (by rfl)
  show ensureViewBox (ensureXmlns (ensureSvgRoot s w h)) w h = _
  rw [e1, e2, e3]

/-- Witness for C1 at the plain text `"hello"` with `w = 3`, `h = 4`. -/
theorem clean_then_validate_has_xmlns_and_viewBox_witness :
    0 < 3 ∧ 0 < 4 ∧
      containsSub ("xmlns=".data)
        (validateAndFixSvg (cleanSvgResponse ("hello".data)) 3 4) = true ∧
      containsSub ("viewBox=".data)
        (validateAndFixSvg (cleanSvgResponse ("hello".data)) 3 4) = true :=
  ⟨by decide, by decide,
    (clean_then_validate_has_xmlns_and_viewBox ("hello".data) 3 4 (by decide) (by decide)).1,
    (clean_then_validate_has_xmlns_and_viewBox ("hello".data) 3 4 (by decide) (by decide)).2.1⟩

/-- C5: the minimal valid fragment
`<svg xmlns="http://www.w3.org/2000/svg" viewBox="0 0 10 10"><rect width="5" height="5"/></svg>`
passes through `clean_svg_response` followed by `validate_and_fix_svg`
unchanged, also when surrounded by whitespace (which is trimmed), for
any requested width and height. -/
theorem minimal_fragment_roundtrip (w h : Nat) :
    validateAndFixSvg (cleanSvgResponse minimalFrag) w h = minimalFrag ∧
    validateAndFixSvg
      (cleanSvgResponse ((("  \n".data) ++ (minimalFrag ++ ("\n \t ".data))))) w h
      = minimalFrag := by
  have hv : validateAndFixSvg minimalFrag w h = minimalFrag := by
    have e1 : ensureSvgRoot minimalFrag w h = minimalFrag := by
      unfold ensureSvgRoot
      rw [if_pos (by rfl)]
    have e2 : ensureXmlns minimalFrag = minimalFrag := by
      unfold ensureXmlns
      rw [if_pos (by rfl)]
    have e3 : ensureViewBox minimalFrag w h = minimalFrag := by
      unfold ensureViewBox
      rw [if_pos (by rfl)]
    show ensureViewBox (ensureXmlns (ensureSvgRoot minimalFrag w h)) w h = _
    rw [e1, e2, e3]
  have hc1 : cleanSvgResponse minimalFrag = minimalFrag := by decide
  have hc2 :
      cleanSvgResponse ((("  \n".data) ++ (minimalFrag ++ ("\n \t ".data)))) =
        minimalFrag := by decide
  rw [hc1, hc2]
  exact ⟨hv, hv⟩

/-- C10: `validate_and_fix_svg` decides its insertions by substring
search over the whole text: when the text starts with `<svg` and the
substrings `xmlns=` and `viewBox=` occur anywhere (even only on a
nested element), the text is returned unmodified. -/
theorem validate_substring_search_unchanged (s : Str) (w h : Nat)
    (h1 : startsWithL ("<svg".data) s = true)
    (h2 : containsSub ("xmlns=".data) s = true)
    (h3 : containsSub ("viewBox=".data) s = true) :
    validateAndFixSvg s w h = s := by
  unfold validateAndFixSvg ensureSvgRoot ensureXmlns ensureViewBox
  rw [if_pos h1, if_pos h2, if_pos h3]

/-- Witness for C10: the root `<svg>` tag carries no `viewBox`, a
nested `<g>` does; the text is returned unmodified. -/
theorem validate_substring_search_unchanged_witness :
    validateAndFixSvg
      (("<svg xmlns=\"http://www.w3.org/2000/svg\"><g viewBox=\"0 0 1 1\"/></svg>".data))
      42 17
      = ("<svg xmlns=\"http://www.w3.org/2000/svg\"><g viewBox=\"0 0 1 1\"/></svg>".data) :=
  validate_substring_search_unchanged _ 42 17 (by decide) (by decide) (by decide)

/-! ## Idempotence machinery for clean_svg_response -/

theorem dropWhile_dropWhile (p : Char → Bool) (l : Str) :
    List.dropWhile p (List.dropWhile p l) = List.dropWhile p l := by
  induction l with
  | nil => rfl
  | cons a u ih =>
    cases hpa : p a with
    | true => rw [List.dropWhile_cons, if_pos hpa, ih]
    | false =>
      rw [List.dropWhile_cons, if_neg (by simp [hpa]),
        List.dropWhile_cons, if_neg (by simp [hpa])]

theorem dropWhile_head_false (p : Char → Bool) (l : Str) (c : Char) (t : Str)
    (h : List.dropWhile p l = c :: t) : p c = false := by
  induction l with
  | nil => simp at h
  | cons a u ih =>
    cases hpa : p a with
    | true => rw [List.dropWhile_cons, if_pos hpa] at h; exact ih h
    | false =>
      rw [List.dropWhile_cons, if_neg (by simp [hpa])] at h
      injection h with h1 _
      rw [← h1]; exact hpa

theorem dropWhile_append_one (p : Char → Bool) (c : Char) (A : Str)
    (hc : p c = false) :
    List.dropWhile p (A ++ [c]) = List.dropWhile p A ++ [c] := by
  induction A with
  | nil => simp [List.dropWhile_cons, hc]
  | cons a u ih =>
    cases hpa : p a with
    | true =>
      rw [List.cons_append, List.dropWhile_cons, if_pos hpa, ih,
        List.dropWhile_cons, if_pos hpa]
    | false =>
      rw [List.cons_append, List.dropWhile_cons, if_neg (by simp [hpa]),
        List.dropWhile_cons, if_neg (by simp [hpa]), List.cons_append]

theorem stripL_stripL (s : Str) : stripL (stripL s) = stripL s := by
  cases hu : List.dropWhile isSpaceC s with
  | nil =>
    have h0 : stripL s = [] := by unfold stripL; rw [hu]; rfl
    rw [h0]; rfl
  | cons c t =>
    have hc : isSpaceC c = false := dropWhile_head_false _ _ _ _ hu
    have h1 : stripL s = c :: (List.dropWhile isSpaceC t.reverse).reverse := by
      unfold stripL
      rw [hu, show (c :: t).reverse = t.reverse ++ [c] by simp,
        dropWhile_append_one _ _ _ hc]
      simp
    rw [h1]
    unfold stripL
    rw [List.dropWhile_cons, if_neg (by simp [hc]),
      show (c :: (List.dropWhile isSpaceC t.reverse).reverse).reverse
          = List.dropWhile isSpaceC t.reverse ++ [c] by simp,
      dropWhile_append_one _ _ _ hc, dropWhile_dropWhile]
    simp

theorem subFenceOpen_id (f : Nat) (b : Bool) (s : Str)
    (h : containsSub ("```".data) s = false) : subFenceOpen f b s = s := by
  induction f generalizing b s with
  | zero => rfl
  | succ f ih =>
    cases s with
    | nil => rfl
    | cons c t =>
      have hsw := sw_false_of_contains_false _ _ h
      simp only [subFenceOpen, hsw, Bool.and_false]
      rw [if_neg (by simp)]
      rw [ih _ _ (contains_tail_false _ _ _ h)]

theorem subFenceClose_id (f : Nat) (s : Str)
    (h : containsSub ("```".data) s = false) : subFenceClose f s = s := by
  induction f generalizing s with
  | zero => rfl
  | succ f ih =>
    cases s with
    | nil => rfl
    | cons c t =>
      have hsw1 := sw_false_of_contains_false _ _ h
      have ht := contains_tail_false _ _ _ h
      have hsw2 := sw_false_of_contains_false _ _ ht
      simp only [subFenceClose, hsw1, hsw2, Bool.and_false]
      rw [if_neg (by simp), if_neg (by simp)]
      rw [ih _ ht]

theorem declMatchLen_none (opener : Str) (needsQ : Bool) (s : Str)
    (h : startsWithL opener s = false) :
    declMatchLen opener needsQ s = none := by
  unfold declMatchLen
  rw [if_neg (by simp [h])]

theorem subDecl_id (opener : Str) (needsQ : Bool) (f : Nat) (s : Str)
    (h : containsSub opener s = false) : subDecl opener needsQ f s = s := by
  induction f generalizing s with
  | zero => rfl
  | succ f ih =>
    cases s with
    | nil => rfl
    | cons c t =>
      have hsw := sw_false_of_contains_false _ _ h
      simp only [subDecl, declMatchLen_none _ _ _ hsw]
      rw [ih _ (contains_tail_false _ _ _ h)]

theorem replaceAllF_id (f : Nat) (pat rep : Str) (s : Str)
    (h : containsSub pat s = false) : replaceAllF f pat rep s = s := by
  induction f generalizing s with
  | zero => rfl
  | succ f ih =>
    cases s with
    | nil => rfl
    | cons c t =>
      have hsw := sw_false_of_contains_false _ _ h
      simp only [replaceAllF, hsw]
      rw [if_neg (by simp)]
      rw [ih _ (contains_tail_false _ _ _ h)]

/-! ## Claim theorems: sanitize idempotence (C4) -/

/-- C4 counterexample: `clean_svg_response` is not idempotent.  On the
input `` ``````svg `` one pass of the fence regex removes only the
first three backticks (the second fence is not at a line start after
the substitution), leaving `` ```svg ``, which a second pass removes
entirely. -/
theorem sanitize_not_idempotent :
    cleanSvgResponse (cleanSvgResponse (("``````svg").data)) ≠
      cleanSvgResponse (("``````svg").data) := by decide

/-- C4 amended: `clean_svg_response` is idempotent on every input
whose cleaned form is free of the artifacts the function removes —
no markdown fence `` ``` ``, no `<?xml`, no `<!DOCTYPE`, no empty
`xmlns=""` attribute and no `&nbsp;` entity (in particular on every
fence-free SVG response). -/
theorem sanitize_idempotent_on_artifact_free (x : Str)
    (h1 : containsSub ("```".data) (cleanSvgResponse x) = false)
    (h2 : containsSub ("<?xml".data) (cleanSvgResponse x) = false)
    (h3 : containsSub ("<!DOCTYPE".data) (cleanSvgResponse x) = false)
    (h4 : containsSub ("xmlns=\"\"".data) (cleanSvgResponse x) = false)
    (h5 : containsSub ("&nbsp;".data) (cleanSvgResponse x) = false) :
    cleanSvgResponse (cleanSvgResponse x) = cleanSvgResponse x := by
  have hstrip : stripL (cleanSvgResponse x) = cleanSvgResponse x := by
    simp only [cleanSvgResponse]
    exact stripL_stripL _
  generalize hgen : cleanSvgResponse x = y at h1 h2 h3 h4 h5 hstrip ⊢
  simp only [cleanSvgResponse]
  rw [subFenceOpen_id _ _ _ h1, subFenceClose_id _ _ h1, subDecl_id _ _ _ _ h2,
    subDecl_id _ _ _ _ h3, replaceAllF_id _ _ _ _ h4, replaceAllF_id _ _ _ _ h5,
    hstrip]

/-- Witness for the amended C4 at a fenced SVG response. -/
theorem sanitize_idempotent_on_artifact_free_witness :
    containsSub ("```".data)
      (cleanSvgResponse (("```svg\n<svg></svg>\n```").data)) = false ∧
    cleanSvgResponse (cleanSvgResponse (("```svg\n<svg></svg>\n```").data)) =
      cleanSvgResponse (("```svg\n<svg></svg>\n```").data) :=
  ⟨by decide,
    sanitize_idempotent_on_artifact_free _ (by decide) (by decide) (by decide)
      (by decide) (by decide)⟩

/-! ## Claim theorems: retry, adapters, placement -/

theorem callApiRetryGo_succeeds_last {E A : Type} (api : Nat → Except E A)
    (errs : Nat → E) (v : A) :
    ∀ rem a, (∀ k, k < rem → api (a + k) = .error (errs (a + k))) →
      api (a + rem) = .ok v →
      callApiRetryGo api a rem = (.ok v, rem + 1) := by
  intro rem
  induction rem with
  | zero =>
    intro a _ hok
    rw [callApiRetryGo]
    simp only [Nat.add_zero] at hok
    rw [hok]
  | succ r ih =>
    intro a hfail hok
    rw [callApiRetryGo]
    have h0 : api a = .error (errs a) := by
      have := hfail 0 (Nat.succ_pos r)
      simpa using this
    rw [h0]
    have ihh := ih (a + 1)
      (fun k hk => by
        have := hfail (k + 1) (Nat.succ_lt_succ hk)
        have he : a + (k + 1) = a + 1 + k := by omega
        rwa [he] at this)
      (by
        have he : a + (r + 1) = a + 1 + r := by omega
        rwa [he] at hok)
    simp only [ihh]

theorem callApiRetryGo_all_fail {E A : Type} (api : Nat → Except E A)
    (errs : Nat → E) :
    ∀ rem a, (∀ k, k ≤ rem → api (a + k) = .error (errs (a + k))) →
      callApiRetryGo api a rem = (.error (errs (a + rem)), rem + 1) := by
  intro rem
  induction rem with
  | zero =>
    intro a hfail
    rw [callApiRetryGo]
    have h0 : api a = .error (errs a) := by simpa using hfail 0 (Nat.le_refl 0)
    rw [h0]
    rfl
  | succ r ih =>
    intro a hfail
    rw [callApiRetryGo]
    have h0 : api a = .error (errs a) := by simpa using hfail 0 (Nat.zero_le _)
    rw [h0]
    have ihh := ih (a + 1)
      (fun k hk => by
        have := hfail (k + 1) (Nat.succ_le_succ hk)
        have he : a + (k + 1) = a + 1 + k := by omega
        rwa [he] at this)
    simp only [ihh]
    have he : a + 1 + r = a + (r + 1) := by omega
    rw [he]

/-- C3: for every `retryCount ≥ 0`, when the provider call fails on
the first `retryCount` attempts and succeeds on the final one,
`call_api_with_retry` returns that result (after `retryCount + 1`
attempts); when every attempt fails, it performs exactly
`retryCount + 1` attempts and re-raises the error of the final
attempt. -/
theorem call_api_with_retry_behavior {E A : Type} (rc : Nat)
    (api : Nat → Except E A) (errs : Nat → E) (v : A) :
    ((∀ k, k < rc → api k = .error (errs k)) → api rc = .ok v →
      callApiWithRetry rc api = (.ok v, rc + 1)) ∧
    ((∀ k, k ≤ rc → api k = .error (errs k)) →
      callApiWithRetry rc api = (.error (errs rc), rc + 1)) := by
  constructor
  · intro hfail hok
    unfold callApiWithRetry
    have := callApiRetryGo_succeeds_last api errs v rc 0
      (fun k hk => by simpa using hfail k hk) (by simpa using hok)
    simpa using this
  · intro hfail
    unfold callApiWithRetry
    have := callApiRetryGo_all_fail api errs rc 0
      (fun k hk => by simpa using hfail k hk)
    simpa using this

/-- Witness for C3 with `retryCount = 2`: a stub failing twice then
succeeding, and a stub that always fails. -/
theorem call_api_with_retry_behavior_witness :
    callApiWithRetry 2
        (fun k => if k < 2 then (.error k : Except Nat String) else .ok "res")
      = (.ok "res", 3) ∧
    callApiWithRetry 2 (fun k => (.error k : Except Nat String)) = (.error 2, 3) :=
  ⟨(call_api_with_retry_behavior 2 _ (fun k => k) "res").1
      (fun k hk => by simp [hk]) (by simp),
    (call_api_with_retry_behavior 2 _ (fun k => k) "res").2 (fun k _ => rfl)⟩

/-- C7 counterexample: the OpenAI adapter applies no model-name
fallback at all — two model names from other providers' families are
both sent unchanged (hence no fixed default is substituted). -/
theorem openai_no_model_fallback :
    openaiWireModel (("claude-3-opus").data) = ("claude-3-opus").data ∧
    openaiWireModel (("gemini-1.5-pro").data) = ("gemini-1.5-pro").data ∧
    ("claude-3-opus").data ≠ ("gemini-1.5-pro").data :=
  ⟨rfl, rfl, by decide⟩

/-- C7 amended: three of the four adapters apply the model-name
fallback exactly as described (Anthropic → `claude-3-5-sonnet-20241022`
unless the name starts with `claude`; Google → `gemini-1.5-flash`
unless it starts with `gemini`; Ollama → `llama3.1` when it starts
with `gpt`, `claude` or `gemini`), while the OpenAI adapter always
sends the configured model name unchanged. -/
theorem model_fallback_three_adapters (m : Str) :
    (startsWithL ("claude".data) m = false →
      anthropicWireModel m = ("claude-3-5-sonnet-20241022".data)) ∧
    (startsWithL ("claude".data) m = true → anthropicWireModel m = m) ∧
    (startsWithL ("gemini".data) m = false →
      googleWireModel m = ("gemini-1.5-flash".data)) ∧
    (startsWithL ("gemini".data) m = true → googleWireModel m = m) ∧
    ((startsWithL ("gpt".data) m || startsWithL ("claude".data) m ||
        startsWithL ("gemini".data) m) = true →
      ollamaWireModel m = ("llama3.1".data)) ∧
    ((startsWithL ("gpt".data) m || startsWithL ("claude".data) m ||
        startsWithL ("gemini".data) m) = false →
      ollamaWireModel m = m) ∧
    openaiWireModel m = m := by
  refine ⟨?_, ?_, ?_, ?_, ?_, ?_, rfl⟩ <;> intro h <;>
    simp [anthropicWireModel, googleWireModel, ollamaWireModel, h]

/-- Witness for the amended C7 at the configured name `gpt-4-turbo`. -/
theorem model_fallback_three_adapters_witness :
    anthropicWireModel (("gpt-4-turbo").data) =
        ("claude-3-5-sonnet-20241022".data) ∧
    googleWireModel (("gpt-4-turbo").data) = ("gemini-1.5-flash".data) ∧
    ollamaWireModel (("gpt-4-turbo").data) = ("llama3.1".data) ∧
    openaiWireModel (("gpt-4-turbo").data) = ("gpt-4-turbo").data :=
  ⟨(model_fallback_three_adapters _).1 (by decide),
    (model_fallback_three_adapters _).2.2.1 (by decide),
    (model_fallback_three_adapters _).2.2.2.2.1 (by decide),
    (model_fallback_three_adapters _).2.2.2.2.2.2⟩

/-- C9: under the centered placement policy the x position is
`(hostWidth - targetWidth)/2`; with more than one variation,
variation `i` is offset by `i * (targetWidth + 20)`, so consecutive
variations sit `targetWidth + 20` apart. -/
theorem centered_placement (docW docH tw th : ℚ) (hasSel : Bool)
    (bbox : Option (ℚ × ℚ)) (v i : Nat) (hv : 1 < v) :
    (computePos ("center".data) hasSel bbox docW docH tw th).1 =
      (docW - tw) / 2 ∧
    finalPosX ("center".data) hasSel bbox docW docH tw th v i =
      (docW - tw) / 2 + (i : ℚ) * (tw + 20) ∧
    finalPosX ("center".data) hasSel bbox docW docH tw th v 1 -
        finalPosX ("center".data) hasSel bbox docW docH tw th v 0 =
      tw + 20 := by
  have hc : (computePos ("center".data) hasSel bbox docW docH tw th).1 =
      (docW - tw) / 2 := by
    unfold computePos
    rw [if_neg (by decide), if_neg (fun hx => absurd hx.1 (by decide))]
  have ho : ∀ j : Nat, offsetX v j tw = (j : ℚ) * (tw + 20) := by
    intro j
    unfold offsetX
    rw [if_pos hv]
  constructor
  · exact hc
  constructor
  · unfold finalPosX
    rw [hc, ho]
  · unfold finalPosX
    rw [hc, ho, ho]
    push_cast
    ring

/-- Witness for C9: `hostWidth = 1000`, `targetWidth = 400`, two
variations: base position 300, second variation 420 further right. -/
theorem centered_placement_witness :
    (computePos ("center".data) false none 1000 800 400 400).1 = 300 ∧
    finalPosX ("center".data) false none 1000 800 400 400 2 1 -
        finalPosX ("center".data) false none 1000 800 400 400 2 0 = 420 := by
  have h := centered_placement 1000 800 400 400 false none 2 1 (by decide)
  exact ⟨by rw [h.1]; norm_num, by rw [h.2.2]; norm_num⟩

/-! ## Claim theorems: document merge ordering (C2) and unknown tags (C6) -/

theorem defsPass_only_toDefs (cs : List XElem) :
    ∀ ev ∈ defsPass cs, ∃ e, ev = MergeEvent.toDefs e := by
  induction cs with
  | nil => intro ev hev; simp [defsPass] at hev
  | cons e rest ih =>
    intro ev hev
    simp only [defsPass, List.mem_append] at hev
    rcases hev with hev | hev
    · split at hev
      · simp only [importDefsEvents, List.mem_map] at hev
        obtain ⟨x, -, hx⟩ := hev
        exact ⟨x, hx.symm⟩
      · simp at hev
    · exact ih ev hev

theorem othersPass_only_toGroup (cs : List XElem) :
    ∀ ev ∈ othersPass cs, ∃ e, ev = MergeEvent.toGroup e := by
  induction cs with
  | nil => intro ev hev; simp [othersPass] at hev
  | cons e rest ih =>
    intro ev hev
    simp only [othersPass, List.mem_append] at hev
    rcases hev with hev | hev
    · split at hev
      · simp at hev
      · split at hev
        · simp only [List.mem_singleton] at hev
          exact ⟨_, hev⟩
        · simp at hev
    · exact ih ev hev

theorem layerPass_only_toLayer (cs : List XElem) :
    ∀ ev ∈ layerPass cs, ∃ e, ev = MergeEvent.toLayer e := by
  induction cs with
  | nil => intro ev hev; simp [layerPass] at hev
  | cons e rest ih =>
    intro ev hev
    simp only [layerPass, List.mem_append] at hev
    rcases hev with hev | hev
    · split at hev
      · simp only [List.mem_singleton] at hev
        exact ⟨_, hev⟩
      · simp at hev
    · exact ih ev hev

/-- C2 counterexample: with grouping disabled and the fragment
`[<rect fill="url(#g1)"/>, <defs><linearGradient id="g1"/></defs>]`,
the gradient (an importable child of the `defs` subtree) is never
appended to the host's global defs container: both children go to the
current layer in source order, so the claimed defs-first import into
the global container fails for the branch without grouping. -/
theorem defs_first_fails_without_grouping :
    importElement cexGradElem =
      some (.mk ("linearGradient".data) ([(("id".data), ("g1".data))]) [] .nil) ∧
    addSvgEvents false ([cexRectElem, cexDefsElem]) =
      [MergeEvent.toLayer
          (.mk ("rect".data) ([(("fill".data), ("url(#g1)".data))]) [] .nil),
        MergeEvent.toLayer (.mk ("defs".data) [] []
          (.cons (.mk ("linearGradient".data) ([(("id".data), ("g1".data))]) [] .nil)
            .nil))] ∧
    (∀ e, MergeEvent.toDefs e ∉ addSvgEvents false ([cexRectElem, cexDefsElem])) := by
  refine ⟨rfl, rfl, ?_⟩
  intro e hmem
  obtain ⟨x, hx⟩ := layerPass_only_toLayer _ _ hmem
  simp at hx

/-- C2 amended: when grouping is enabled, the merge event trace splits
into a first block of global-defs imports followed by a block free of
defs-container imports — every child of every `defs` subtree reaches
the host's defs container before any non-defs sibling is imported,
independent of source order; when grouping is disabled, nothing is
ever appended to the global defs container and all children go to the
layer in source order. -/
theorem defs_imported_before_siblings (children : List XElem) :
    (∃ xs ys, addSvgEvents true children = xs ++ ys ∧
      (∀ ev ∈ xs, ∃ e, ev = MergeEvent.toDefs e) ∧
      (∀ ev ∈ ys, ∀ e, ev ≠ MergeEvent.toDefs e)) ∧
    (∀ e, MergeEvent.toDefs e ∉ addSvgEvents false children) := by
  constructor
  · refine ⟨defsPass children, othersPass children ++ [MergeEvent.groupToLayer],
      ?_, defsPass_only_toDefs children, ?_⟩
    · simp [addSvgEvents]
    · intro ev hev e
      rcases List.mem_append.mp hev with hev | hev
      · obtain ⟨x, hx⟩ := othersPass_only_toGroup _ _ hev
        rw [hx]
        exact fun hc => MergeEvent.noConfusion hc
      · simp only [List.mem_singleton] at hev
        rw [hev]
        exact fun hc => MergeEvent.noConfusion hc
  · intro e hmem
    simp [addSvgEvents] at hmem
    obtain ⟨x, hx⟩ := layerPass_only_toLayer _ _ hmem
    simp at hx

/-- C6: an element whose namespace-stripped tag lies outside
`element_map` never aborts the merge: `import_element` builds the
generic passthrough node keeping the tag, the attributes and the text,
and in both merge branches the element's siblings are still
processed. -/
theorem unknown_tag_imported_generically (rawTag : Str)
    (attrs : List (Str × Str)) (text : Str) (cs : XForest) (rest : List XElem)
    (h : elementMapTags.contains (stripNsTag rawTag) = false) :
    importElement (.mk rawTag attrs text cs) =
      some (.mk (stripNsTag rawTag) attrs text .nil) ∧
    layerPass ((XElem.mk rawTag attrs text cs) :: rest) =
      MergeEvent.toLayer (.mk (stripNsTag rawTag) attrs text .nil) ::
        layerPass rest ∧
    othersPass ((XElem.mk rawTag attrs text cs) :: rest) =
      MergeEvent.toGroup (.mk (stripNsTag rawTag) attrs text .nil) ::
        othersPass rest := by
  have himp : importElement (.mk rawTag attrs text cs) =
      some (.mk (stripNsTag rawTag) attrs text .nil) := by
    simp only [importElement]
    rw [if_neg (fun hc => by rw [h] at hc; exact Bool.noConfusion hc)]
  have hdefs : tagIsDefs (.mk rawTag attrs text cs) = false := by
    show (stripNsTag rawTag == ("defs".data)) = false
    cases heq : (stripNsTag rawTag == ("defs".data)) with
    | false => rfl
    | true =>
      exfalso
      rw [eq_of_beq heq] at h
      exact absurd h (by decide)
  refine ⟨himp, ?_, ?_⟩
  · simp [layerPass, himp]
  · simp [othersPass, hdefs, himp]

/-- Witness for C6 at a `foreignObject` element followed by a `rect`
sibling. -/
theorem unknown_tag_imported_generically_witness :
    importElement (.mk ("foreignObject".data) ([(("x".data), ("1".data))])
        ("txt".data) .nil) =
      some (.mk ("foreignObject".data) ([(("x".data), ("1".data))])
        ("txt".data) .nil) ∧
    layerPass [XElem.mk ("foreignObject".data) ([(("x".data), ("1".data))])
        ("txt".data) .nil, cexRectElem] =
      MergeEvent.toLayer (.mk ("foreignObject".data) ([(("x".data), ("1".data))])
          ("txt".data) .nil) :: layerPass [cexRectElem] ∧
    othersPass [XElem.mk ("foreignObject".data) ([(("x".data), ("1".data))])
        ("txt".data) .nil, cexRectElem] =
      MergeEvent.toGroup (.mk ("foreignObject".data) ([(("x".data), ("1".data))])
          ("txt".data) .nil) :: othersPass [cexRectElem] :=
  unknown_tag_imported_generically _ _ _ _ _ (by decide)

/-! ## Claim theorem: early abort on an invalid intent text (C8) -/

/-- C8: whenever the stripped intent text is shorter than three
characters, the run reports a user-visible error and returns before
any network attempt and before `add_svg_to_document` is ever invoked
(so before any node is attached to the host document). -/
theorem short_prompt_aborts (o : EffOptions) (cfg : List (Str × Str))
    (api : Nat → Nat → Except Str Str)
    (h : (stripL o.prompt).length < 3) :
    (∃ m, EffEvent.errorMsg m ∈ effectEvents o cfg api) ∧
    (∀ v a, EffEvent.networkAttempt v a ∉ effectEvents o cfg api) ∧
    (∀ v, EffEvent.addSvgCall v ∉ effectEvents o cfg api) := by
  have hp : promptInvalid o = true := by
    unfold promptInvalid
    simp [h]
  unfold effectEvents
  by_cases hk : keyInvalid o (resolvedKey o cfg) = true
  · rw [if_pos hk]
    exact ⟨⟨keyErrMsg o, by simp⟩, fun v a => by simp, fun v => by simp⟩
  · rw [if_neg hk, if_pos hp]
    by_cases hs : (o.saveApiKey && !(resolvedKey o cfg).isEmpty) = true
    · rw [if_pos hs]
      exact ⟨⟨promptErrMsg, by simp⟩, fun v a => by simp, fun v => by simp⟩
    · rw [if_neg hs]
      exact ⟨⟨promptErrMsg, by simp⟩, fun v a => by simp, fun v => by simp⟩

/-- Witness for C8: provider `ollama`, intent text `hi`. -/
theorem short_prompt_aborts_witness :
    (stripL (("hi").data)).length < 3 ∧
    (∃ m, EffEvent.errorMsg m ∈
      effectEvents ⟨("ollama".data), [], false, ("hi".data), 1, 2, true⟩ []
        (fun _ _ => .ok (("x").data))) ∧
    (∀ v a, EffEvent.networkAttempt v a ∉
      effectEvents ⟨("ollama".data), [], false, ("hi".data), 1, 2, true⟩ []
        (fun _ _ => .ok (("x").data))) ∧
    (∀ v, EffEvent.addSvgCall v ∉
      effectEvents ⟨("ollama".data), [], false, ("hi".data), 1, 2, true⟩ []
        (fun _ _ => .ok (("x").data))) :=
  ⟨by decide,
    (short_prompt_aborts _ _ _ (by decide)).1,
    (short_prompt_aborts _ _ _ (by decide)).2.1,
    (short_prompt_aborts _ _ _ (by decide)).2.2⟩
